import Mathlib

/-!
Verification of the MiddleOverStrikeRateOptimizer pipeline.

This file gives a shallow embedding, in Lean 4, of the core computational
components of the repository:

* the bowler-type classifier and venue classifier
  (`Dataset/analyze_venues.py`),
* the batter recent-form calculator
  (`Dataset/calculate_batter_recent_form.py`),
* the current-run-rate calculator (`Dataset/calculate_runrate.py`),
* the scenario scorer (`backend/main.py`, `optimize_batting_order` and the
  `/api/optimize` endpoint `optimize_order`),
* the three dataset-enrichment passes, modelled over association-list rows.

Python floats are modelled as rationals (`ℚ`), Python ints as naturals where
the source only ever holds non-negative counts, dictionaries as association
lists or as functions with the `defaultdict` default, and fallible code
(operations that can raise) as `Option`-valued functions.
-/

namespace MOSRO

/-! ## Generic helpers -/

/-- `round(x, 2)` of Python, over `ℚ`: round to two decimal places.
(Ties are rounded half-up here; no statement in this file depends on the
tie-breaking rule.) -/
def round2 (q : ℚ) : ℚ := (round (q * 100) : ℤ) / 100

theorem round2_zero : round2 0 = 0 := by
  simp [round2]

theorem round2_intMul (k : ℤ) : round2 ((k : ℚ) / 100) = (k : ℚ) / 100 := by
  simp [round2, div_mul_cancel₀]

theorem round2_idem (q : ℚ) : round2 (round2 q) = round2 q := by
  unfold round2
  rw [div_mul_cancel₀]
  · rw [round_intCast]
  · norm_num

theorem round2_mono {x y : ℚ} (h : x ≤ y) : round2 x ≤ round2 y := by
  unfold round2
  have : round (x * 100) ≤ round (y * 100) := by
    rw [round_eq, round_eq]
    exact Int.floor_le_floor (by linarith)
  have h100 : (0 : ℚ) ≤ 100 := by norm_num
  exact div_le_div_of_nonneg_right (by exact_mod_cast this) h100

/-- Association-list lookup keyed by decidable equality (models a Python
dict lookup; the first binding for a key wins). -/
def alookup {α β : Type} [DecidableEq α] (k : α) : List (α × β) → Option β
  | [] => none
  | (k', v) :: t => if k' = k then some v else alookup k t

theorem alookup_append {α β : Type} [DecidableEq α] (k : α)
    (l₁ l₂ : List (α × β)) :
    alookup k (l₁ ++ l₂) =
      match alookup k l₁ with
      | some v => some v
      | none => alookup k l₂ := by
  induction l₁ with
  | nil => simp [alookup]
  | cons hd tl ih =>
    obtain ⟨k', v⟩ := hd
    by_cases h : k' = k <;> simp [alookup, h, ih]

theorem alookup_isSome_of_mem_keys {α β : Type} [DecidableEq α] {k : α}
    {l : List (α × β)} (h : k ∈ l.map Prod.fst) :
    ∃ v, alookup k l = some v := by
  induction l with
  | nil => simp at h
  | cons hd tl ih =>
    obtain ⟨k', v⟩ := hd
    by_cases hk : k' = k
    · exact ⟨v, by simp [alookup, hk]⟩
    · have : k ∈ tl.map Prod.fst := by
        simp at h
        rcases h with h | h
        · exact absurd h.symm hk
        · simpa using h
      obtain ⟨w, hw⟩ := ih this
      exact ⟨w, by simp [alookup, hk, hw]⟩

theorem alookup_eq_none_of_not_mem_keys {α β : Type} [DecidableEq α] {k : α}
    {l : List (α × β)} (h : k ∉ l.map Prod.fst) :
    alookup k l = none := by
  induction l with
  | nil => rfl
  | cons hd tl ih =>
    obtain ⟨k', v⟩ := hd
    simp only [List.map_cons, List.mem_cons, not_or] at h
    have hne : ¬ k' = k := fun hk => h.1 hk.symm
    simp [alookup, hne, ih h.2]

/-! ## Run-rate calculator (`Dataset/calculate_runrate.py`, `calculate_crr`) -/

/-- `calculate_crr(over, ball, cumulative_runs)`:
total legal balls = `over * 6 + ball`; `0.0` when that is zero, otherwise
`cumulative_runs / (total_balls / 6.0)` rounded to two decimals. -/
def calculate_crr (over ball : ℕ) (cumulative_runs : ℚ) : ℚ :=
  let total_balls := over * 6 + ball
  if total_balls = 0 then 0
  else
    let overs_bowled : ℚ := (total_balls : ℚ) / 6
    round2 (cumulative_runs / overs_bowled)

/-- C7: the run-rate calculator computes `total_legal_balls = over*6 + ball`,
returns `0.0` when that is zero, and otherwise
`cumulative_runs / (total_legal_balls / 6.0)` rounded to two decimals;
`rate 0 0 0 = 0` and `rate 1 0 6 = 6`. -/
theorem crr_spec :
    (∀ over ball : ℕ, ∀ runs : ℚ, over * 6 + ball = 0 →
      calculate_crr over ball runs = 0) ∧
    (∀ over ball : ℕ, ∀ runs : ℚ, over * 6 + ball ≠ 0 →
      calculate_crr over ball runs =
        round2 (runs / (((over * 6 + ball : ℕ) : ℚ) / 6))) ∧
    calculate_crr 0 0 0 = 0 ∧ calculate_crr 1 0 6 = 6 := by
  refine ⟨?_, ?_, ?_, ?_⟩
  · intro over ball runs h
    simp [calculate_crr, h]
  · intro over ball runs h
    simp [calculate_crr, h]
  · rfl
  · show round2 ((6 : ℚ) / ((6 : ℚ) / 6)) = 6
    norm_num [round2]

/-- Witness for `crr_spec`: instantiates both hypothesised clauses at
concrete inputs. -/
theorem crr_spec_witness :
    calculate_crr 0 0 5 = 0 ∧ calculate_crr 2 3 30 = 12 := by
  constructor
  · exact crr_spec.1 0 0 5 (by decide)
  · have h := crr_spec.2.1 2 3 30 (by decide)
    rw [h]
    norm_num [round2]

/-! ## Bowler-type classifier (`Dataset/analyze_venues.py`, `get_bowling_category`) -/

/-- Lower-cased character list of a string (Python `str.lower()`; the
bowling-style strings are ASCII). -/
def lowerData (s : String) : List Char := s.data.map Char.toLower

/-- `kw in hay` of Python: the keyword occurs as a contiguous substring. -/
def containsSub (kw : String) (hay : List Char) : Bool := decide (kw.data <:+: hay)

def SPIN_KEYWORDS : List String :=
  ["spin", "orthodox", "legbreak", "offbreak", "googly", "slow",
   "wrist spin", "chinaman"]

def PACE_KEYWORDS : List String := ["fast", "medium", "seam", "swing"]

/-- Explicit overrides for ambiguous combo types. -/
def SPIN_OVERRIDES : List String :=
  ["Right arm Medium, Legbreak",
   "Right arm Medium, Right arm Offbreak",
   "Left arm Medium, Slow Left arm Orthodox",
   "Left arm Fast medium, Slow Left arm Orthodox"]

def PACE_OVERRIDES : List String := []

/-- `get_bowling_category(bowler_type)`: returns `"Spin"`, `"Pace"`, or
`"Unknown"`. -/
def get_bowling_category (bowler_type : String) : String :=
  if bowler_type = "" ∨ bowler_type ∈ ["N/A", "", "| Umpire = True"] then "Unknown"
  else if bowler_type ∈ SPIN_OVERRIDES then "Spin"
  else if bowler_type ∈ PACE_OVERRIDES then "Pace"
  else
    let bt_lower := lowerData bowler_type
    let is_spin := SPIN_KEYWORDS.any (fun kw => containsSub kw bt_lower)
    let is_pace := PACE_KEYWORDS.any (fun kw => containsSub kw bt_lower)
    if is_spin && !is_pace then "Spin"
    else if is_pace && !is_spin then "Pace"
    else if is_pace && is_spin then "Spin"
    else "Unknown"

/-- C6: the bowler-type classifier returns `Unknown` on empty/placeholder
input; exact-match overrides are checked before any keyword matching; when no
override applies and both a spin keyword and a pace keyword occur in the
lower-cased string the result is `Spin`; when neither keyword set matches
the result is `Unknown`; and the four concrete examples evaluate as claimed. -/
theorem bowling_category_spec :
    (∀ s : String, (s = "" ∨ s = "N/A" ∨ s = "| Umpire = True") →
      get_bowling_category s = "Unknown") ∧
    (∀ s : String, s ≠ "" → s ≠ "N/A" → s ≠ "| Umpire = True" →
      s ∈ SPIN_OVERRIDES → get_bowling_category s = "Spin") ∧
    (∀ s : String, s ≠ "" → s ≠ "N/A" → s ≠ "| Umpire = True" →
      s ∉ SPIN_OVERRIDES → s ∉ PACE_OVERRIDES →
      SPIN_KEYWORDS.any (fun kw => containsSub kw (lowerData s)) = true →
      PACE_KEYWORDS.any (fun kw => containsSub kw (lowerData s)) = true →
      get_bowling_category s = "Spin") ∧
    (∀ s : String, s ≠ "" → s ≠ "N/A" → s ≠ "| Umpire = True" →
      s ∉ SPIN_OVERRIDES → s ∉ PACE_OVERRIDES →
      SPIN_KEYWORDS.any (fun kw => containsSub kw (lowerData s)) = false →
      PACE_KEYWORDS.any (fun kw => containsSub kw (lowerData s)) = false →
      get_bowling_category s = "Unknown") ∧
    get_bowling_category "Right arm Offbreak" = "Spin" ∧
    get_bowling_category "Right arm Fast medium" = "Pace" ∧
    get_bowling_category "Left arm Fast medium, Slow Left arm Orthodox" = "Spin" ∧
    get_bowling_category "" = "Unknown" := by
  refine ⟨?_, ?_, ?_, ?_, ?_, ?_, ?_, ?_⟩
  · intro s h
    rcases h with h | h | h <;> simp [get_bowling_category, h]
  · intro s h1 h2 h3 hov
    simp [get_bowling_category, h1, h2, h3, hov]
  · intro s h1 h2 h3 hs hp hsk hpk
    simp [get_bowling_category, h1, h2, h3, hs, hp, hsk, hpk]
  · intro s h1 h2 h3 hs hp hsk hpk
    simp [get_bowling_category, h1, h2, h3, hs, hp, hsk, hpk]
  · decide
  · decide
  · decide
  · decide

/-- Witness for `bowling_category_spec`: its hypothesised clauses applied at
concrete strings. -/
theorem bowling_category_spec_witness :
    get_bowling_category "N/A" = "Unknown" ∧
    get_bowling_category "Right arm Medium, Legbreak" = "Spin" ∧
    get_bowling_category "Left arm Medium, Slow Left arm Orthodox" = "Spin" ∧
    get_bowling_category "Right arm Wicketkeeper" = "Unknown" := by
  refine ⟨?_, ?_, ?_, ?_⟩
  · exact bowling_category_spec.1 "N/A" (Or.inr (Or.inl rfl))
  · exact bowling_category_spec.2.1 "Right arm Medium, Legbreak"
      (by decide) (by decide) (by decide) (by decide)
  · exact bowling_category_spec.2.1 "Left arm Medium, Slow Left arm Orthodox"
      (by decide) (by decide) (by decide) (by decide)
  · exact bowling_category_spec.2.2.2.1 "Right arm Wicketkeeper"
      (by decide) (by decide) (by decide) (by decide) (by decide)
      (by decide) (by decide)

/-! ## Venue classification (`Dataset/analyze_venues.py`, `classify_venue`) -/

/-- `classify_venue(pace_balls, pace_runs, pace_wickets, spin_balls,
spin_runs, spin_wickets, match_count)`.

The source computes `pace_avg`/`spin_avg` (as `inf` when the wicket count is
zero) before branching on zero wicket counts; since both zero-wicket branches
return before the averages are used, hoisting the branches is equivalent.
In the remaining branch Python evaluates `spin_avg / pace_avg` on floats and
raises `ZeroDivisionError` when `pace_avg == 0.0` (i.e. `pace_runs == 0` with
`pace_wickets > 0`); that raise is modelled as `none`. -/
def classify_venue (pace_balls pace_runs pace_wickets
    spin_balls spin_runs spin_wickets match_count : ℕ) : Option String :=
  if match_count < 3 then some "Neutral"
  else if pace_wickets = 0 ∧ spin_wickets = 0 then some "Neutral"
  else if pace_wickets = 0 then some "Spin Friendly"
  else if spin_wickets = 0 then some "Pace Friendly"
  else
    let pace_avg : ℚ := (pace_runs : ℚ) / (pace_wickets : ℚ)
    let spin_avg : ℚ := (spin_runs : ℚ) / (spin_wickets : ℚ)
    if pace_avg = 0 then none
    else
      let ratio := spin_avg / pace_avg
      if ratio < 85 / 100 then some "Spin Friendly"
      else if ratio > 115 / 100 then some "Pace Friendly"
      else some "Neutral"

/-- C2: venue classification is `Neutral` whenever fewer than 3 matches were
seen, regardless of the other counts; `Neutral` when both wicket counts are
zero; `Spin Friendly` when only pace has zero wickets and `Pace Friendly`
when only spin has zero wickets (with at least 3 matches); otherwise, with
`ratio = (spin_runs/spin_wkts) / (pace_runs/pace_wkts)` (well defined, i.e.
`pace_runs ≠ 0`), the label is `Spin Friendly` iff `ratio < 0.85`,
`Pace Friendly` iff `ratio > 1.15`, and `Neutral` otherwise. -/
theorem classify_venue_spec :
    (∀ pb pr pw sb sr sw mc : ℕ, mc < 3 →
      classify_venue pb pr pw sb sr sw mc = some "Neutral") ∧
    (∀ pb pr sb sr mc : ℕ, 3 ≤ mc →
      classify_venue pb pr 0 sb sr 0 mc = some "Neutral") ∧
    (∀ pb pr sb sr sw mc : ℕ, 3 ≤ mc → sw ≠ 0 →
      classify_venue pb pr 0 sb sr sw mc = some "Spin Friendly") ∧
    (∀ pb pr pw sb sr mc : ℕ, 3 ≤ mc → pw ≠ 0 →
      classify_venue pb pr pw sb sr 0 mc = some "Pace Friendly") ∧
    (∀ pb pr pw sb sr sw mc : ℕ, 3 ≤ mc → pw ≠ 0 → sw ≠ 0 → pr ≠ 0 →
      (classify_venue pb pr pw sb sr sw mc = some "Spin Friendly" ↔
        ((sr : ℚ) / sw) / ((pr : ℚ) / pw) < 85 / 100) ∧
      (classify_venue pb pr pw sb sr sw mc = some "Pace Friendly" ↔
        ((sr : ℚ) / sw) / ((pr : ℚ) / pw) > 115 / 100) ∧
      (classify_venue pb pr pw sb sr sw mc = some "Neutral" ↔
        (¬ ((sr : ℚ) / sw) / ((pr : ℚ) / pw) < 85 / 100 ∧
         ¬ ((sr : ℚ) / sw) / ((pr : ℚ) / pw) > 115 / 100))) := by
  refine ⟨?_, ?_, ?_, ?_, ?_⟩
  · intro pb pr pw sb sr sw mc h
    simp [classify_venue, h]
  · intro pb pr sb sr mc h
    simp [classify_venue, Nat.not_lt.mpr h]
  · intro pb pr sb sr sw mc h hsw
    simp [classify_venue, Nat.not_lt.mpr h, hsw]
  · intro pb pr pw sb sr mc h hpw
    simp [classify_venue, Nat.not_lt.mpr h, hpw]
  · intro pb pr pw sb sr sw mc hmc hpw hsw hpr
    have hpavg : ((pr : ℚ) / (pw : ℚ)) ≠ 0 := by
      apply div_ne_zero
      · exact_mod_cast hpr
      · exact_mod_cast hpw
    have hunfold : classify_venue pb pr pw sb sr sw mc =
        (if ((sr : ℚ) / sw) / ((pr : ℚ) / pw) < 85 / 100 then some "Spin Friendly"
         else if ((sr : ℚ) / sw) / ((pr : ℚ) / pw) > 115 / 100 then some "Pace Friendly"
         else some "Neutral") := by
      simp [classify_venue, Nat.not_lt.mpr hmc, hpw, hsw, hpavg]
    rw [hunfold]
    by_cases h1 : ((sr : ℚ) / sw) / ((pr : ℚ) / pw) < 85 / 100
    · refine ⟨by simp [h1], ?_, by simp [h1]⟩
      simp only [h1, if_true]
      constructor
      · intro h2
        simp at h2
      · intro h2
        linarith
    · by_cases h2 : ((sr : ℚ) / sw) / ((pr : ℚ) / pw) > 115 / 100
      · simp [h1, h2]
      · simp [h1, h2]

/-- Witness for `classify_venue_spec`: the spec's worked examples — pace
average 20 with spin average 16 (ratio `0.8`) is `Spin Friendly`, the swap
(ratio `1.25`) is `Pace Friendly`, pace 18 with spin 19 (ratio within the
band) is `Neutral`, and a 2-match venue is always `Neutral`. -/
theorem classify_venue_spec_witness :
    classify_venue 60 20 1 60 16 1 3 = some "Spin Friendly" ∧
    classify_venue 60 16 1 60 20 1 3 = some "Pace Friendly" ∧
    classify_venue 60 18 1 60 19 1 3 = some "Neutral" ∧
    classify_venue 10 500 9 10 1 1 2 = some "Neutral" := by
  refine ⟨?_, ?_, ?_, ?_⟩
  · exact ((classify_venue_spec.2.2.2.2 60 20 1 60 16 1 3 (by decide)
      (by decide) (by decide) (by decide)).1).mpr (by norm_num)
  · exact ((classify_venue_spec.2.2.2.2 60 16 1 60 20 1 3 (by decide)
      (by decide) (by decide) (by decide)).2.1).mpr (by norm_num)
  · exact ((classify_venue_spec.2.2.2.2 60 18 1 60 19 1 3 (by decide)
      (by decide) (by decide) (by decide)).2.2).mpr (by norm_num)
  · exact classify_venue_spec.1 10 500 9 10 1 1 2 (by decide)

/-! ## Delivery rows and per-venue aggregation
(`Dataset/analyze_venues.py`, pass 1 of `main`) -/

/-- One ball-by-ball row, with the fields the core components read.
Numeric CSV cells that the source converts with `int(...)` are modelled as
naturals. -/
structure Delivery where
  file : String
  date : String
  venue : String
  batter : String
  bowler_type : String
  batter_runs : ℕ
  extras_type : String
  total_runs : ℕ
  cumulative_runs : ℕ
  over : ℕ
  ball : ℕ
  wicket : String
  wicket_mode : String
deriving DecidableEq, Repr

/-- Per-bowling-type accumulator `[balls, runs, wickets]`. -/
structure TypeStats where
  balls : ℕ
  runs : ℕ
  wkts : ℕ
deriving DecidableEq, Repr

/-- Per-venue accumulator `{'Pace': [...], 'Spin': [...]}`. -/
structure VenueStats where
  pace : TypeStats
  spin : TypeStats
deriving DecidableEq, Repr

def stats0 : VenueStats := ⟨⟨0, 0, 0⟩, ⟨0, 0, 0⟩⟩

/-- Aggregation state: `venue_stats` (a `defaultdict` with zeroed entries)
and `matches_per_venue` (a `defaultdict` of sets, modelled as duplicate-free
lists). -/
structure AggState where
  stats : String → VenueStats
  matches_per_venue : String → List String

def aggInit : AggState := ⟨fun _ => stats0, fun _ => []⟩

/-- Set insertion for the per-venue match set. -/
def setInsert (x : String) (l : List String) : List String :=
  if x ∈ l then l else l ++ [x]

/-- `is_legal` of the venue pass: the lower-cased extras text contains
neither `"wides"` nor `"no ball"`/`"noballs"`. -/
def isLegalDelivery (d : Delivery) : Bool :=
  let extra := lowerData d.extras_type
  let is_wide := containsSub "wides" extra
  let is_no_ball := containsSub "no ball" extra || containsSub "noballs" extra
  !(is_wide || is_no_ball)

/-- Wicket attribution of the venue pass: the raw `Wicket` field is not one
of the placeholders `'No', '0', '', 'N/A'`, and — when it is marked — the
lower-cased `Wicket_Mode` does not contain `"run out"`, `"retired"`, or
`"obstructing"`. -/
def isCountedWicket (d : Delivery) : Bool :=
  if d.wicket ∈ (["No", "0", "", "N/A"] : List String) then false
  else
    let wicket_mode := lowerData d.wicket_mode
    !(containsSub "run out" wicket_mode || containsSub "retired" wicket_mode ||
      containsSub "obstructing" wicket_mode)

/-- Add one delivery's contribution to a bowling-type accumulator. -/
def bumpStats (d : Delivery) (t : TypeStats) : TypeStats :=
  { balls := t.balls + (if isLegalDelivery d then 1 else 0)
    runs := t.runs + d.total_runs
    wkts := t.wkts + (if isCountedWicket d then 1 else 0) }

/-- The body of the pass-1 loop of `analyze_venues.main`, for one row:
record the match id for the venue, classify the bowler, skip all counters if
`Unknown`, otherwise update the classified bucket of the delivery's venue. -/
def venueStep (st : AggState) (d : Delivery) : AggState :=
  let mpv : String → List String := fun v =>
    if v = d.venue then setInsert d.file (st.matches_per_venue v) else st.matches_per_venue v
  let category := get_bowling_category d.bowler_type
  if category = "Unknown" then { st with matches_per_venue := mpv }
  else
    let stats' := fun v =>
      if v = d.venue then
        if category = "Pace" then
          { st.stats v with pace := bumpStats d (st.stats v).pace }
        else
          { st.stats v with spin := bumpStats d (st.stats v).spin }
      else st.stats v
    { stats := stats', matches_per_venue := mpv }

/-- Pass 1 over the whole dataset. -/
def venueAggregate (ds : List Delivery) : AggState := ds.foldl venueStep aggInit

/-- C5: on each delivery the aggregation step always adds the match id to
the delivery's venue's match set (leaving other venues' sets alone); when the
bowler type classifies as `Unknown` no ball/run/wicket counter changes; when
it classifies as `Pace` (resp. `Spin`) exactly that bucket of exactly that
venue changes — runs grow by the delivery's total runs unconditionally,
the ball count grows by 1 exactly when the extras text contains neither
`"wides"` nor `"no ball"`/`"noballs"`, and the wicket count grows by 1
exactly when the delivery is a counted wicket. -/
theorem venue_step_spec :
    (∀ st d, (venueStep st d).matches_per_venue d.venue =
        setInsert d.file (st.matches_per_venue d.venue)) ∧
    (∀ st d v, v ≠ d.venue →
        (venueStep st d).matches_per_venue v = st.matches_per_venue v) ∧
    (∀ st d, get_bowling_category d.bowler_type = "Unknown" →
        (venueStep st d).stats = st.stats) ∧
    (∀ st d, get_bowling_category d.bowler_type = "Pace" →
        (venueStep st d).stats d.venue =
          { st.stats d.venue with
              pace :=
                { balls := (st.stats d.venue).pace.balls +
                    (if isLegalDelivery d then 1 else 0)
                  runs := (st.stats d.venue).pace.runs + d.total_runs
                  wkts := (st.stats d.venue).pace.wkts +
                    (if isCountedWicket d then 1 else 0) } }) ∧
    (∀ st d, get_bowling_category d.bowler_type = "Spin" →
        (venueStep st d).stats d.venue =
          { st.stats d.venue with
              spin :=
                { balls := (st.stats d.venue).spin.balls +
                    (if isLegalDelivery d then 1 else 0)
                  runs := (st.stats d.venue).spin.runs + d.total_runs
                  wkts := (st.stats d.venue).spin.wkts +
                    (if isCountedWicket d then 1 else 0) } }) ∧
    (∀ st d v, v ≠ d.venue →
        (venueStep st d).stats v = st.stats v) := by
  refine ⟨?_, ?_, ?_, ?_, ?_, ?_⟩
  · intro st d
    by_cases h : get_bowling_category d.bowler_type = "Unknown" <;>
      simp [venueStep, h]
  · intro st d v hv
    by_cases h : get_bowling_category d.bowler_type = "Unknown" <;>
      simp [venueStep, h, hv]
  · intro st d h
    simp [venueStep, h]
  · intro st d h
    simp [venueStep, h, bumpStats]
  · intro st d h
    have hne : get_bowling_category d.bowler_type ≠ "Unknown" := by
      rw [h]; decide
    have hnp : get_bowling_category d.bowler_type ≠ "Pace" := by
      rw [h]; decide
    simp [venueStep, hne, hnp, bumpStats]
  · intro st d v hv
    by_cases h : get_bowling_category d.bowler_type = "Unknown" <;>
      simp [venueStep, h, hv]

/-- Witness for `venue_step_spec`: one concrete spin delivery (a wide with a
stumping) applied to the empty state. -/
theorem venue_step_spec_witness :
    (venueStep aggInit
        { file := "m1", date := "2024-01-01", venue := "Galle",
          batter := "A", bowler_type := "Slow Left arm Orthodox",
          batter_runs := 0, extras_type := "wides", total_runs := 1,
          cumulative_runs := 1, over := 0, ball := 1,
          wicket := "Yes", wicket_mode := "stumped" }).stats "Galle" =
      { stats0 with spin := { balls := 0, runs := 1, wkts := 1 } } ∧
    (venueStep aggInit
        { file := "m1", date := "2024-01-01", venue := "Galle",
          batter := "A", bowler_type := "Slow Left arm Orthodox",
          batter_runs := 0, extras_type := "wides", total_runs := 1,
          cumulative_runs := 1, over := 0, ball := 1,
          wicket := "Yes", wicket_mode := "stumped" }).matches_per_venue "Lord's" = [] := by
  constructor
  · have h := venue_step_spec.2.2.2.2.1 aggInit
      { file := "m1", date := "2024-01-01", venue := "Galle",
        batter := "A", bowler_type := "Slow Left arm Orthodox",
        batter_runs := 0, extras_type := "wides", total_runs := 1,
        cumulative_runs := 1, over := 0, ball := 1,
        wicket := "Yes", wicket_mode := "stumped" } (by decide)
    rw [h]
    decide
  · exact venue_step_spec.2.1 aggInit
      { file := "m1", date := "2024-01-01", venue := "Galle",
        batter := "A", bowler_type := "Slow Left arm Orthodox",
        batter_runs := 0, extras_type := "wides", total_runs := 1,
        cumulative_runs := 1, over := 0, ball := 1,
        wicket := "Yes", wicket_mode := "stumped" } "Lord's" (by decide)

/-! ## A comparison sort

An insertion sort, used in two places.  For the recent-form script it
embeds Python's `list.sort`, which is guaranteed stable (and there the
composite `(date, file)` keys of one batter are pairwise distinct, so any
correct sort gives the same list).  For the scorer it is one concrete
refinement of the pandas `sort_values` call, whose default sort kind leaves
the relative order of equal keys unspecified; no theorem in this file
asserts anything about the tie order of that call. -/

/-- Insertion step: `x` is placed before the first element `y` with
`le x y`; elements passed over keep their order. -/
def insertLe {α : Type} (le : α → α → Bool) (x : α) : List α → List α
  | [] => [x]
  | y :: ys => if le x y then x :: y :: ys else y :: insertLe le x ys

/-- Insertion sort. -/
def sortLe {α : Type} (le : α → α → Bool) (l : List α) : List α :=
  l.foldr (insertLe le) []

theorem insertLe_perm {α : Type} (le : α → α → Bool) (x : α) (l : List α) :
    (insertLe le x l).Perm (x :: l) := by
  induction l with
  | nil => simp [insertLe]
  | cons y ys ih =>
    by_cases h : le x y
    · simp [insertLe, h]
    · simp only [insertLe, h, Bool.false_eq_true, if_false]
      exact (ih.cons y).trans (List.Perm.swap x y ys)

theorem sortLe_perm {α : Type} (le : α → α → Bool) (l : List α) :
    (sortLe le l).Perm l := by
  induction l with
  | nil => simp [sortLe]
  | cons x xs ih =>
    exact (insertLe_perm le x (sortLe le xs)).trans (ih.cons x)

/-! ## Recent-form calculator
(`Dataset/calculate_batter_recent_form.py`, `main`) -/

/-- Key of `innings_stats`: `(File, Batter)`. -/
abbrev InnKey := String × String

/-- Value of `innings_stats`: `(date, runs, balls)`. -/
abbrev InnVal := String × ℕ × ℕ

/-- One update of `innings_stats[key]`: set the date, add the batter runs,
and add one ball faced unless the delivery is a wide (`ballInc`).  New keys
start from the `defaultdict` zero record. -/
def innUpd (k : InnKey) (date : String) (runs ballInc : ℕ) :
    List (InnKey × InnVal) → List (InnKey × InnVal)
  | [] => [(k, (date, runs, ballInc))]
  | (k', v) :: t =>
      if k' = k then (k', (date, v.2.1 + runs, v.2.2 + ballInc)) :: t
      else (k', v) :: innUpd k date runs ballInc t

/-- Pass 1 of the recent-form script: fold all deliveries into per-(match,
batter) innings records.  A delivery contributes its batter runs always and
one ball faced unless its extras type is exactly `"Wide"`. -/
def inningsFold (ds : List Delivery) : List (InnKey × InnVal) :=
  ds.foldl
    (fun m d =>
      innUpd (d.file, d.batter) d.date d.batter_runs
        (if d.extras_type = "Wide" then 0 else 1) m)
    []

/-- One element of a batter's history: `(date, file_id, runs, balls)`. -/
abbrev Inn := String × String × ℕ × ℕ

/-- The composite sort key `(date, file_id)` of the history sort
(lexicographic on the date string, then on the match-file string; string
order is code-point lexicographic, as in Python). -/
def innLe (a b : Inn) : Bool :=
  decide (a.1.data < b.1.data) ||
    (decide (a.1 = b.1) && !decide (b.2.1.data < a.2.1.data))

/-- The batter's records, in `innings_stats` insertion order. -/
def innsOf (m : List (InnKey × InnVal)) (b : String) : List Inn :=
  m.filterMap
    (fun e => if e.1.2 = b then some (e.2.1, e.1.1, e.2.2.1, e.2.2.2) else none)

/-- The batter's chronological history: records sorted ascending by
`(date, file_id)`. -/
def histOf (m : List (InnKey × InnVal)) (b : String) : List Inn :=
  sortLe innLe (innsOf m b)

/-- The recent-form value at position `i` of a sorted history: strike rate
over the window `history[max(0, i-5) : i]`, `0.0` on an empty window or zero
balls, rounded to two decimals. -/
def srAt (h : List Inn) (i : ℕ) : ℚ :=
  let prev := (h.take i).drop (i - 5)
  let sr : ℚ :=
    if prev = [] then 0
    else
      let total_runs : ℕ := (prev.map (fun p => p.2.2.1)).sum
      let total_balls : ℕ := (prev.map (fun p => p.2.2.2)).sum
      if 0 < total_balls then (total_runs : ℚ) / (total_balls : ℚ) * 100 else 0
  round2 sr

/-- The enumeration `for i, (date, file_id, runs, balls) in enumerate(history)`
that fills `last5_sr[(file_id, batter)]`. -/
def withSRAux (b : String) (full : List Inn) :
    List Inn → ℕ → List (InnKey × ℚ)
  | [], _ => []
  | e :: t, i => ((e.2.1, b), srAt full i) :: withSRAux b full t (i + 1)

def withSR (b : String) (h : List Inn) : List (InnKey × ℚ) := withSRAux b h h 0

/-- Grouping order of `batter_history` (deduplicated batter names). -/
def battersOf (m : List (InnKey × InnVal)) : List String :=
  (m.map (fun e => e.1.2)).dedup

/-- The full `last5_sr` map: for every batter, every position of the sorted
history contributes one `(file, batter) ↦ strike-rate` binding. -/
def last5Entries (m : List (InnKey × InnVal)) : List (InnKey × ℚ) :=
  (battersOf m).flatMap (fun b => withSR b (histOf m b))

theorem innUpd_keys (k : InnKey) (date : String) (runs ballInc : ℕ)
    (m : List (InnKey × InnVal)) :
    (innUpd k date runs ballInc m).map Prod.fst =
      if k ∈ m.map Prod.fst then m.map Prod.fst
      else m.map Prod.fst ++ [k] := by
  induction m with
  | nil => simp [innUpd]
  | cons hd tl ih =>
    obtain ⟨k', v⟩ := hd
    by_cases h : k' = k
    · subst h
      simp [innUpd]
    · have h' : ¬ k = k' := fun hh => h hh.symm
      by_cases hm : k ∈ tl.map Prod.fst <;>
        simp [innUpd, h, h', hm, ih]

theorem innUpd_keys_nodup {k : InnKey} {date : String} {runs ballInc : ℕ}
    {m : List (InnKey × InnVal)} (h : (m.map Prod.fst).Nodup) :
    ((innUpd k date runs ballInc m).map Prod.fst).Nodup := by
  rw [innUpd_keys]
  by_cases hm : k ∈ m.map Prod.fst
  · simpa [hm]
  · simpa [hm, List.nodup_append] using h

theorem mem_keys_innUpd_self (k : InnKey) (date : String) (runs ballInc : ℕ)
    (m : List (InnKey × InnVal)) :
    k ∈ (innUpd k date runs ballInc m).map Prod.fst := by
  rw [innUpd_keys]
  by_cases hm : k ∈ m.map Prod.fst <;> simp [hm]

theorem mem_keys_innUpd_mono {k' : InnKey} (k : InnKey) (date : String)
    (runs ballInc : ℕ) {m : List (InnKey × InnVal)}
    (h : k' ∈ m.map Prod.fst) :
    k' ∈ (innUpd k date runs ballInc m).map Prod.fst := by
  rw [innUpd_keys]
  by_cases hm : k ∈ m.map Prod.fst <;> simp [hm, h]

/-- The step of `inningsFold`. -/
def innStep (m : List (InnKey × InnVal)) (d : Delivery) :
    List (InnKey × InnVal) :=
  innUpd (d.file, d.batter) d.date d.batter_runs
    (if d.extras_type = "Wide" then 0 else 1) m

theorem inningsFold_eq_foldl (ds : List Delivery) :
    inningsFold ds = ds.foldl innStep [] := rfl

theorem foldl_innStep_keys_nodup (ds : List Delivery)
    (m : List (InnKey × InnVal)) (h : (m.map Prod.fst).Nodup) :
    (((ds.foldl innStep m)).map Prod.fst).Nodup := by
  induction ds generalizing m with
  | nil => simpa
  | cons d t ih => exact ih _ (innUpd_keys_nodup h)

theorem inningsFold_keys_nodup (ds : List Delivery) :
    ((inningsFold ds).map Prod.fst).Nodup := by
  rw [inningsFold_eq_foldl]
  exact foldl_innStep_keys_nodup ds [] (by simp)

theorem mem_keys_foldl_innStep {k : InnKey} (ds : List Delivery)
    (m : List (InnKey × InnVal)) (h : k ∈ m.map Prod.fst) :
    k ∈ ((ds.foldl innStep m)).map Prod.fst := by
  induction ds generalizing m with
  | nil => exact h
  | cons d t ih => exact ih _ (mem_keys_innUpd_mono _ _ _ _ h)

theorem mem_keys_inningsFold {ds : List Delivery} {d : Delivery}
    (hd : d ∈ ds) :
    (d.file, d.batter) ∈ (inningsFold ds).map Prod.fst := by
  rw [inningsFold_eq_foldl]
  suffices hgen : ∀ (l : List Delivery) (m : List (InnKey × InnVal)),
      d ∈ l → (d.file, d.batter) ∈ ((l.foldl innStep m)).map Prod.fst from
    hgen ds [] hd
  intro l
  induction l with
  | nil => intro m h; simp at h
  | cons e t ih =>
    intro m h
    rcases List.mem_cons.mp h with rfl | h
    · exact mem_keys_foldl_innStep t _ (mem_keys_innUpd_self _ _ _ _ m)
    · exact ih _ h

theorem mem_innsOf_key {m : List (InnKey × InnVal)} {b : String} {x : Inn}
    (hx : x ∈ innsOf m b) : (x.2.1, b) ∈ m.map Prod.fst := by
  induction m with
  | nil => simp [innsOf] at hx
  | cons e t ih =>
    obtain ⟨⟨f, bt⟩, v⟩ := e
    by_cases h : bt = b
    · subst h
      simp only [innsOf, List.filterMap_cons, if_pos rfl] at hx
      rcases List.mem_cons.mp hx with rfl | hx
      · simp
      · exact List.mem_cons_of_mem _ (ih hx)
    · simp only [innsOf, List.filterMap_cons, if_neg h] at hx
      exact List.mem_cons_of_mem _ (ih hx)

theorem innsOf_files_nodup {m : List (InnKey × InnVal)} {b : String}
    (h : (m.map Prod.fst).Nodup) :
    ((innsOf m b).map (fun x => x.2.1)).Nodup := by
  induction m with
  | nil => simp [innsOf]
  | cons e t ih =>
    obtain ⟨⟨f, bt⟩, v⟩ := e
    rcases List.nodup_cons.mp (by simpa only [List.map_cons] using h) with ⟨hk, ht⟩
    by_cases hb : bt = b
    · subst hb
      simp only [innsOf, List.filterMap_cons, if_pos rfl, List.map_cons]
      refine List.nodup_cons.mpr ⟨?_, ih ht⟩
      intro hf
      obtain ⟨x, hx, hfx⟩ := List.mem_map.mp hf
      have := mem_innsOf_key (m := t) hx
      rw [hfx] at this
      exact hk this
    · simp only [innsOf, List.filterMap_cons, if_neg hb]
      exact ih ht

theorem histOf_files_nodup {m : List (InnKey × InnVal)} {b : String}
    (h : (m.map Prod.fst).Nodup) :
    ((histOf m b).map (fun x => x.2.1)).Nodup := by
  have hp : ((histOf m b).map (fun x => x.2.1)).Perm
      ((innsOf m b).map (fun x => x.2.1)) :=
    (sortLe_perm innLe (innsOf m b)).map _
  exact hp.nodup_iff.mpr (innsOf_files_nodup h)

theorem withSRAux_keys (b : String) (full : List Inn) :
    ∀ (t : List Inn) (i : ℕ),
      (withSRAux b full t i).map Prod.fst = t.map (fun e => (e.2.1, b)) := by
  intro t
  induction t with
  | nil => intro i; simp [withSRAux]
  | cons e t' ih => intro i; simp [withSRAux, ih]

theorem alookup_withSR_ne (b b' : String) (hne : b' ≠ b) (f : String)
    (h : List Inn) :
    alookup (f, b') (withSR b h) = none := by
  apply alookup_eq_none_of_not_mem_keys
  unfold withSR
  rw [withSRAux_keys]
  intro hmem
  obtain ⟨e, _, he⟩ := List.mem_map.mp hmem
  have : b = b' := by injection he
  exact hne this.symm

theorem alookup_withSRAux_at (b : String) (full : List Inn) :
    ∀ (t : List Inn) (i j : ℕ), ((t.map (fun e => e.2.1)).Nodup) →
      (hj : j < t.length) →
      alookup (t[j].2.1, b) (withSRAux b full t i) = some (srAt full (i + j)) := by
  intro t
  induction t with
  | nil => intro i j _ hj; simp at hj
  | cons e t' ih =>
    intro i j hnd hj
    rcases List.nodup_cons.mp (by simpa only [List.map_cons] using hnd) with ⟨hf, ht'⟩
    match j with
    | 0 => simp [withSRAux, alookup]
    | j' + 1 =>
      have hj' : j' < t'.length := by simpa using hj
      have hfile : t'[j'].2.1 ∈ t'.map (fun e => e.2.1) :=
        List.mem_map.mpr ⟨t'[j'], List.getElem_mem hj', rfl⟩
      have hne : ¬ (e.2.1, b) = (t'[j'].2.1, b) := by
        intro hcontra
        have h1 : e.2.1 = t'[j'].2.1 := by injection hcontra
        exact hf (by rw [h1]; exact hfile)
      have hrec := ih (i + 1) j' ht' hj'
      have harith : i + 1 + j' = i + (j' + 1) := by omega
      rw [harith] at hrec
      simp only [List.getElem_cons_succ, withSRAux, alookup, hne, if_false]
      exact hrec

theorem alookup_flatMap_none {bl : List String}
    (m : List (InnKey × InnVal)) (f b : String) (hnb : b ∉ bl) :
    alookup (f, b) (bl.flatMap (fun b' => withSR b' (histOf m b'))) = none := by
  induction bl with
  | nil => rfl
  | cons b' t ih =>
    simp only [List.mem_cons, not_or] at hnb
    rw [List.flatMap_cons, alookup_append,
      alookup_withSR_ne b' b hnb.1 f _]
    exact ih hnb.2

theorem alookup_flatMap_eq {bl : List String}
    (m : List (InnKey × InnVal)) (f b : String) (hmem : b ∈ bl)
    (hnd : bl.Nodup) :
    alookup (f, b) (bl.flatMap (fun b' => withSR b' (histOf m b'))) =
      alookup (f, b) (withSR b (histOf m b)) := by
  induction bl with
  | nil => simp at hmem
  | cons b' t ih =>
    rcases List.nodup_cons.mp hnd with ⟨hb', ht⟩
    by_cases h : b' = b
    · subst h
      rw [List.flatMap_cons, alookup_append]
      cases hlk : alookup (f, b') (withSR b' (histOf m b')) with
      | some v => rfl
      | none => exact alookup_flatMap_none m f b' hb'
    · rw [List.flatMap_cons, alookup_append,
        alookup_withSR_ne b' b (fun hh => h hh.symm) f _]
      have hmem' : b ∈ t := by
        rcases List.mem_cons.mp hmem with rfl | hm
        · exact absurd rfl h
        · exact hm
      exact ih hmem' ht

theorem mem_battersOf {m : List (InnKey × InnVal)} {b : String} :
    b ∈ battersOf m ↔ b ∈ m.map (fun e => e.1.2) := List.mem_dedup

theorem battersOf_nodup (m : List (InnKey × InnVal)) :
    (battersOf m).Nodup := List.nodup_dedup _

theorem mem_batters_of_key {m : List (InnKey × InnVal)} {f b : String}
    (h : (f, b) ∈ m.map Prod.fst) : b ∈ battersOf m := by
  rw [mem_battersOf]
  obtain ⟨e, he, hk⟩ := List.mem_map.mp h
  exact List.mem_map.mpr ⟨e, he, by rw [hk]⟩

theorem mem_innsOf_of_key {m : List (InnKey × InnVal)} {f b : String}
    (h : (f, b) ∈ m.map Prod.fst) :
    f ∈ (innsOf m b).map (fun x => x.2.1) := by
  induction m with
  | nil => simp at h
  | cons e t ih =>
    obtain ⟨⟨f', bt⟩, v⟩ := e
    rcases List.mem_cons.mp (by simpa only [List.map_cons] using h) with heq | hmem
    · rw [Prod.ext_iff] at heq
      obtain ⟨h1, h2⟩ := heq
      subst h1
      subst h2
      simp [innsOf]
    · by_cases hb : bt = b
      · subst hb
        simp only [innsOf, List.filterMap_cons, if_pos rfl, List.map_cons]
        exact List.mem_cons_of_mem _ (ih hmem)
      · simp only [innsOf, List.filterMap_cons, if_neg hb]
        exact ih hmem

theorem round2_int (q : ℚ) (k : ℤ) (h : q * 100 = k) :
    round2 q = (k : ℚ) / 100 := by
  unfold round2
  rw [h, round_intCast]

/-- Six chronological innings of one batter, balls faced
`[10,10,10,10,10,10]` and runs `[10,20,10,20,10,20]` (the spec's worked
recent-form example). -/
def exInnings : List (InnKey × InnVal) :=
  [(("m1", "B"), ("2024-01-01", 10, 10)),
   (("m2", "B"), ("2024-01-02", 20, 10)),
   (("m3", "B"), ("2024-01-03", 10, 10)),
   (("m4", "B"), ("2024-01-04", 20, 10)),
   (("m5", "B"), ("2024-01-05", 10, 10)),
   (("m6", "B"), ("2024-01-06", 20, 10))]

/-- C3: the recent-form value at position `i` of a batter's sorted history
is `0.0` when the window `[max(0, i-5), i)` is empty or has zero total
balls, and otherwise the window's strike rate `sum(runs)/sum(balls)*100`
rounded to two decimals; in particular the value at position `0` is always
`0.0`; the `last5_sr` map binds, for every batter and every position `i` of
that batter's sorted history, the key `(file at i, batter)` to exactly that
value; the map is total over the input (every delivery's `(File, Batter)`
pair has an entry); and on the six-innings example with balls
`[10,10,10,10,10,10]` and runs `[10,20,10,20,10,20]` the value at index 5 is
`140.0` and the value at index 0 is `0.0`. -/
theorem recent_form_spec :
    (∀ (h : List Inn) (i : ℕ), (h.take i).drop (i - 5) = [] →
      srAt h i = 0) ∧
    (∀ (h : List Inn) (i : ℕ),
      ((((h.take i).drop (i - 5)).map (fun p => p.2.2.2)).sum = 0) →
      srAt h i = 0) ∧
    (∀ (h : List Inn) (i : ℕ), (h.take i).drop (i - 5) ≠ [] →
      0 < (((h.take i).drop (i - 5)).map (fun p => p.2.2.2)).sum →
      srAt h i = round2
        ((Nat.cast ((((h.take i).drop (i - 5)).map (fun p => p.2.2.1)).sum) : ℚ) /
          (Nat.cast ((((h.take i).drop (i - 5)).map (fun p => p.2.2.2)).sum) : ℚ) *
          100)) ∧
    (∀ h : List Inn, srAt h 0 = 0) ∧
    (∀ (ds : List Delivery) (b : String) (i : ℕ)
      (hi : i < (histOf (inningsFold ds) b).length),
      alookup ((histOf (inningsFold ds) b)[i].2.1, b)
          (last5Entries (inningsFold ds)) =
        some (srAt (histOf (inningsFold ds) b) i)) ∧
    (∀ (ds : List Delivery) (d : Delivery), d ∈ ds →
      ∃ v, alookup (d.file, d.batter) (last5Entries (inningsFold ds)) =
        some v) ∧
    alookup ("m6", "B") (last5Entries exInnings) = some 140 ∧
    alookup ("m1", "B") (last5Entries exInnings) = some 0 := by
  have hsr0 : ∀ (h : List Inn) (i : ℕ), (h.take i).drop (i - 5) = [] →
      srAt h i = 0 := by
    intro h i hw
    simp only [srAt, hw, if_pos rfl]
    exact round2_zero
  have hsrz : ∀ (h : List Inn) (i : ℕ),
      ((((h.take i).drop (i - 5)).map (fun p => p.2.2.2)).sum = 0) →
      srAt h i = 0 := by
    intro h i hz
    by_cases hw : (h.take i).drop (i - 5) = []
    · exact hsr0 h i hw
    · simp only [srAt, hw, if_neg, if_false, hz]
      simp [round2_zero]
  have hpos : ∀ (h : List Inn) (i : ℕ), (h.take i).drop (i - 5) ≠ [] →
      0 < (((h.take i).drop (i - 5)).map (fun p => p.2.2.2)).sum →
      srAt h i = round2
        ((Nat.cast ((((h.take i).drop (i - 5)).map (fun p => p.2.2.1)).sum) : ℚ) /
          (Nat.cast ((((h.take i).drop (i - 5)).map (fun p => p.2.2.2)).sum) : ℚ) *
          100) := by
    intro h i hw hb
    simp only [srAt]
    rw [if_neg hw, if_pos hb]
  have hlook : ∀ (ds : List Delivery) (b : String) (i : ℕ)
      (hi : i < (histOf (inningsFold ds) b).length),
      alookup ((histOf (inningsFold ds) b)[i].2.1, b)
          (last5Entries (inningsFold ds)) =
        some (srAt (histOf (inningsFold ds) b) i) := by
    intro ds b i hi
    have hnd := inningsFold_keys_nodup ds
    have hmemhist : (histOf (inningsFold ds) b)[i] ∈ histOf (inningsFold ds) b :=
      List.getElem_mem hi
    have hmeminns : (histOf (inningsFold ds) b)[i] ∈ innsOf (inningsFold ds) b :=
      (sortLe_perm innLe (innsOf (inningsFold ds) b)).mem_iff.mp hmemhist
    have hkey : ((histOf (inningsFold ds) b)[i].2.1, b) ∈
        (inningsFold ds).map Prod.fst := mem_innsOf_key hmeminns
    have hbmem : b ∈ battersOf (inningsFold ds) := mem_batters_of_key hkey
    rw [last5Entries, alookup_flatMap_eq (inningsFold ds) _ b hbmem
      (battersOf_nodup (inningsFold ds))]
    have := alookup_withSRAux_at b (histOf (inningsFold ds) b)
      (histOf (inningsFold ds) b) 0 i (histOf_files_nodup hnd) hi
    rw [Nat.zero_add] at this
    exact this
  have htot : ∀ (ds : List Delivery) (d : Delivery), d ∈ ds →
      ∃ v, alookup (d.file, d.batter) (last5Entries (inningsFold ds)) =
        some v := by
    intro ds d hd
    apply alookup_isSome_of_mem_keys
    have hkey := mem_keys_inningsFold hd
    have hbmem : d.batter ∈ battersOf (inningsFold ds) := mem_batters_of_key hkey
    have hfile : d.file ∈
        (innsOf (inningsFold ds) d.batter).map (fun x => x.2.1) :=
      mem_innsOf_of_key hkey
    have hfile' : d.file ∈
        (histOf (inningsFold ds) d.batter).map (fun x => x.2.1) :=
      (((sortLe_perm innLe (innsOf (inningsFold ds) d.batter)).map _).mem_iff).mpr hfile
    have hkeywsr : (d.file, d.batter) ∈
        (withSR d.batter (histOf (inningsFold ds) d.batter)).map Prod.fst := by
      rw [withSR, withSRAux_keys]
      obtain ⟨x, hx, hfx⟩ := List.mem_map.mp hfile'
      exact List.mem_map.mpr ⟨x, hx, by rw [hfx]⟩
    obtain ⟨e, he, hek⟩ := List.mem_map.mp hkeywsr
    refine List.mem_map.mpr ⟨e, ?_, hek⟩
    exact List.mem_flatMap.mpr ⟨d.batter, hbmem, he⟩
  refine ⟨hsr0, hsrz, hpos, ?_, hlook, htot, ?_, ?_⟩
  · intro h
    exact hsr0 h 0 (by simp)
  · have hhist : histOf exInnings "B" =
        [("2024-01-01", "m1", 10, 10), ("2024-01-02", "m2", 20, 10),
         ("2024-01-03", "m3", 10, 10), ("2024-01-04", "m4", 20, 10),
         ("2024-01-05", "m5", 10, 10), ("2024-01-06", "m6", 20, 10)] := by
      decide
    have hsr5 : srAt
        [(("2024-01-01" : String), ("m1" : String), (10 : ℕ), (10 : ℕ)),
         ("2024-01-02", "m2", 20, 10), ("2024-01-03", "m3", 10, 10),
         ("2024-01-04", "m4", 20, 10), ("2024-01-05", "m5", 10, 10),
         ("2024-01-06", "m6", 20, 10)] 5 = 140 := by
      rw [hpos _ 5 (by decide) (by decide)]
      have hruns : (((([(("2024-01-01" : String), ("m1" : String), (10 : ℕ),
          (10 : ℕ)), ("2024-01-02", "m2", 20, 10), ("2024-01-03", "m3", 10, 10),
          ("2024-01-04", "m4", 20, 10), ("2024-01-05", "m5", 10, 10),
          ("2024-01-06", "m6", 20, 10)] : List Inn).take 5).drop (5 - 5)).map
            (fun p => p.2.2.1)).sum = 70 := by decide
      have hballs : (((([(("2024-01-01" : String), ("m1" : String), (10 : ℕ),
          (10 : ℕ)), ("2024-01-02", "m2", 20, 10), ("2024-01-03", "m3", 10, 10),
          ("2024-01-04", "m4", 20, 10), ("2024-01-05", "m5", 10, 10),
          ("2024-01-06", "m6", 20, 10)] : List Inn).take 5).drop (5 - 5)).map
            (fun p => p.2.2.2)).sum = 50 := by decide
      rw [hruns, hballs, round2_int _ 14000 (by push_cast; norm_num)]
      norm_num
    rw [last5Entries, alookup_flatMap_eq exInnings _ "B" (by decide)
      (by decide : (battersOf exInnings).Nodup), hhist]
    simp only [withSR, withSRAux, alookup]
    rw [if_neg (by decide), if_neg (by decide), if_neg (by decide),
      if_neg (by decide), if_neg (by decide), if_pos (by decide), hsr5]
  · have hhist : histOf exInnings "B" =
        [("2024-01-01", "m1", 10, 10), ("2024-01-02", "m2", 20, 10),
         ("2024-01-03", "m3", 10, 10), ("2024-01-04", "m4", 20, 10),
         ("2024-01-05", "m5", 10, 10), ("2024-01-06", "m6", 20, 10)] := by
      decide
    have hsr00 : srAt
        [(("2024-01-01" : String), ("m1" : String), (10 : ℕ), (10 : ℕ)),
         ("2024-01-02", "m2", 20, 10), ("2024-01-03", "m3", 10, 10),
         ("2024-01-04", "m4", 20, 10), ("2024-01-05", "m5", 10, 10),
         ("2024-01-06", "m6", 20, 10)] 0 = 0 := hsr0 _ 0 (by simp)
    rw [last5Entries, alookup_flatMap_eq exInnings _ "B" (by decide)
      (by decide : (battersOf exInnings).Nodup), hhist]
    simp only [withSR, withSRAux, alookup]
    rw [if_pos (by decide), hsr00]

/-- Witness for `recent_form_spec`: its hypothesised clauses applied at
concrete inputs — a one-delivery dataset and the six-innings example. -/
theorem recent_form_spec_witness :
    srAt (histOf exInnings "B") 0 = 0 ∧
    srAt (histOf exInnings "B") 5 =
      round2 ((Nat.cast (70 : ℕ) : ℚ) / (Nat.cast (50 : ℕ) : ℚ) * 100) ∧
    (∃ v, alookup ("m1", "B")
        (last5Entries (inningsFold
          [{ file := "m1", date := "2024-01-01", venue := "V", batter := "B",
             bowler_type := "Right arm Fast", batter_runs := 4,
             extras_type := "N/A", total_runs := 4, cumulative_runs := 4,
             over := 0, ball := 1, wicket := "No", wicket_mode := "N/A" }])) =
      some v) := by
  refine ⟨?_, ?_, ?_⟩
  · exact recent_form_spec.2.2.2.1 (histOf exInnings "B")
  · have hhist : histOf exInnings "B" =
        [("2024-01-01", "m1", 10, 10), ("2024-01-02", "m2", 20, 10),
         ("2024-01-03", "m3", 10, 10), ("2024-01-04", "m4", 20, 10),
         ("2024-01-05", "m5", 10, 10), ("2024-01-06", "m6", 20, 10)] := by
      decide
    have h := recent_form_spec.2.2.1 (histOf exInnings "B") 5
      (by rw [hhist]; decide) (by rw [hhist]; decide)
    rw [h]
    rw [hhist]
    norm_num
  · exact recent_form_spec.2.2.2.2.2.1
      [{ file := "m1", date := "2024-01-01", venue := "V", batter := "B",
         bowler_type := "Right arm Fast", batter_runs := 4,
         extras_type := "N/A", total_runs := 4, cumulative_runs := 4,
         over := 0, ball := 1, wicket := "No", wicket_mode := "N/A" }]
      { file := "m1", date := "2024-01-01", venue := "V", batter := "B",
        bowler_type := "Right arm Fast", batter_runs := 4,
        extras_type := "N/A", total_runs := 4, cumulative_runs := 4,
        over := 0, ball := 1, wicket := "No", wicket_mode := "N/A" }
      (List.mem_singleton.mpr rfl)

/-! ## Scenario scorer (`backend/main.py`, `optimize_batting_order` and the
`/api/optimize` endpoint `optimize_order`) -/

/-- A pandas/dict cell value: a string, a number (Python float/int as `ℚ`),
or Python's `None`. -/
inductive Val where
  | s : String → Val
  | q : ℚ → Val
  | n : ℕ → Val
  | null : Val
deriving DecidableEq, Repr

/-- A feature row / CSV row: an association list from column name to value
(a Python dict; keys are unique in the dicts the source builds). -/
abbrev Row := List (String × Val)

/-- `row[k] = v` of Python: replace the binding of `k` in place, appending a
new binding when the key is absent. -/
def rowSet (r : Row) (k : String) (v : Val) : Row :=
  match r with
  | [] => [(k, v)]
  | (k', v') :: t => if k' = k then (k, v) :: t else (k', v') :: rowSet t k v

/-- `dict.update` — fold the updates left to right. -/
def dictUpdate (r : Row) (upd : Row) : Row :=
  upd.foldl (fun acc kv => rowSet acc kv.1 kv.2) r

/-- The `BatterInfo` payload: name and recent strike rate. -/
structure BatterInfo where
  name : String
  sr : ℚ
deriving DecidableEq, Repr

/-- `base_scenario` of `optimize_batting_order`: scenario features default to
`None`, the two strike-rate features default to `100.0`. -/
def base_scenario : Row :=
  [("Over", Val.null), ("Cumulative_Wickets", Val.null),
   ("Current_Run_Rate", Val.null), ("Inning", Val.null),
   ("Venue_Type", Val.null), ("Bowler_Group", Val.null),
   ("Batter_Last5_SR", Val.q 100), ("Batter_vs_BowlerType_SR", Val.q 100)]

/-- One simulation row for one candidate: the base scenario updated with the
caller's scenario dict, then `Batter` and `Batter_Last5_SR` set from the
candidate. -/
def buildRow (scenario : Row) (b : BatterInfo) : Row :=
  rowSet (rowSet (dictUpdate base_scenario scenario) "Batter" (Val.s b.name))
    "Batter_Last5_SR" (Val.q b.sr)

/-- Effectful map over a list, failing as soon as one element fails. -/
def traverseOpt {α β : Type} (f : α → Option β) : List α → Option (List β)
  | [] => some []
  | a :: t =>
    match f a, traverseOpt f t with
    | some b, some bs => some (b :: bs)
    | _, _ => none

/-- `sim_df[training_columns]`: select (and reorder to) the training columns;
pandas raises `KeyError` — modelled as `none` — when any column is missing. -/
def reindexRow (cols : List String) (r : Row) : Option Row :=
  traverseOpt (fun c => (alookup c r).map (fun v => (c, v))) cols

/-- One 3-class probability vector `(p_pressure, p_rotation, p_boundary)`:
index 0 is Pressure, index 1 Strike Rotation, index 2 Boundary. -/
abbrev Prob3 := ℚ × ℚ × ℚ

/-- The Unified Tactical Score of one candidate:
`(Boundary*1.5) + (Rotation*1.0) - (Pressure*1.0)` over the probabilities
scaled to percentages. -/
def tactical_score (p : Prob3) : ℚ :=
  (p.2.2 * 100) * (3 / 2) + (p.2.1 * 100) * 1 - (p.1 * 100) * 1

/-- One entry of the `results` list of `optimize_batting_order`. -/
structure ScoredRow where
  Batter : String
  Tactical_Score : ℚ
  Boundary_Prob : ℚ
  Strike_Rotation : ℚ
  Pressure_Prob : ℚ
deriving DecidableEq, Repr

def mkScored (b : BatterInfo) (p : Prob3) : ScoredRow :=
  { Batter := b.name
    Tactical_Score := round2 (tactical_score p)
    Boundary_Prob := round2 (p.2.2 * 100)
    Strike_Rotation := round2 (p.2.1 * 100)
    Pressure_Prob := round2 (p.1 * 100) }

/-- The `results` loop: one scored row per candidate, pairing candidate `i`
with probability vector `i`. -/
def buildScored (batters : List BatterInfo) (probs : List Prob3) :
    List ScoredRow :=
  (batters.zip probs).map (fun bp => mkScored bp.1 bp.2)

/-- Descending comparison by Tactical Score used by
`sort_values(by='Tactical_Score', ascending=False)`. -/
def scoreLe (a b : ScoredRow) : Bool :=
  decide (b.Tactical_Score ≤ a.Tactical_Score)

/-- The simulation batch before sorting: build one row per candidate,
select the training columns (hard failure on a missing column), call the
model per row, and build the scored results in input order. -/
def scoredPre (scenario : Row) (batters : List BatterInfo)
    (predict : Row → Prob3) (training_columns : List String) :
    Option (List ScoredRow) :=
  (traverseOpt (reindexRow training_columns)
      (batters.map (buildRow scenario))).map
    (fun rs => buildScored batters (rs.map predict))

/-- `optimize_batting_order`: the scored results sorted descending by
Tactical Score.  The source calls
`results_df.sort_values(by='Tactical_Score', ascending=False)` with the
default pandas sort kind, which does not guarantee a tie order; the
embedding refines the call with one concrete comparison sort, and no
theorem below depends on the order this refinement gives equal scores. -/
def optimize_batting_order (scenario : Row) (batters : List BatterInfo)
    (predict : Row → Prob3) (training_columns : List String) :
    Option (List ScoredRow) :=
  (scoredPre scenario batters predict training_columns).map (sortLe scoreLe)

/-- One element of the endpoint's `optimized_order` response. -/
structure RankedRow where
  Rank : ℕ
  Batter : String
  Boundary_Prob : ℚ
  Strike_Rotation : ℚ
  Pressure_Prob : ℚ
  Middle_Over_Score : ℚ
deriving DecidableEq, Repr

/-- The `/api/optimize` endpoint `optimize_order`: enumerate the sorted rows
from rank 1, re-rounding each reported field. -/
def optimize_order (scenario : Row) (batters : List BatterInfo)
    (predict : Row → Prob3) (training_columns : List String) :
    Option (List RankedRow) :=
  (optimize_batting_order scenario batters predict training_columns).map
    (fun l =>
      (List.enumFrom 1 l).map (fun ir =>
        { Rank := ir.1
          Batter := ir.2.Batter
          Boundary_Prob := round2 ir.2.Boundary_Prob
          Strike_Rotation := round2 ir.2.Strike_Rotation
          Pressure_Prob := round2 ir.2.Pressure_Prob
          Middle_Over_Score := round2 ir.2.Tactical_Score }))

theorem round2_intCast (k : ℤ) : round2 (k : ℚ) = (k : ℚ) := by
  unfold round2
  rw [show ((k : ℚ) * 100) = (((k * 100 : ℤ)) : ℚ) by push_cast; ring,
    round_intCast]
  push_cast
  ring

theorem traverseOpt_length {α β : Type} (f : α → Option β) :
    ∀ (l : List α) (res : List β), traverseOpt f l = some res →
      res.length = l.length := by
  intro l
  induction l with
  | nil =>
    intro res h
    simp [traverseOpt] at h
    simp [← h]
  | cons a t ih =>
    intro res h
    simp only [traverseOpt] at h
    cases hfa : f a with
    | none => rw [hfa] at h; simp at h
    | some b =>
      rw [hfa] at h
      cases htr : traverseOpt f t with
      | none => rw [htr] at h; simp at h
      | some bs =>
        rw [htr] at h
        simp at h
        rw [← h]
        simp [ih bs htr]

theorem traverseOpt_cons_none {α β : Type} (f : α → Option β) (a : α)
    (t : List α) (h : f a = none) : traverseOpt f (a :: t) = none := by
  simp [traverseOpt, h]

theorem buildScored_map_Batter :
    ∀ (batters : List BatterInfo) (probs : List Prob3),
      batters.length = probs.length →
      (buildScored batters probs).map (fun r => r.Batter) =
        batters.map (fun b => b.name) := by
  intro batters
  induction batters with
  | nil => intro probs h; simp [buildScored]
  | cons b bs ih =>
    intro probs h
    cases probs with
    | nil => simp at h
    | cons p ps =>
      have hlen : bs.length = ps.length := by simpa using h
      simp only [buildScored, List.zip_cons_cons, List.map_cons]
      exact congrArg _ (ih ps hlen)

theorem buildScored_map_score :
    ∀ (batters : List BatterInfo) (probs : List Prob3),
      batters.length = probs.length →
      (buildScored batters probs).map (fun r => r.Tactical_Score) =
        probs.map (fun p => round2 (tactical_score p)) := by
  intro batters
  induction batters with
  | nil =>
    intro probs h
    have : probs = [] := List.length_eq_zero.mp (by simpa using h.symm)
    subst this
    simp [buildScored]
  | cons b bs ih =>
    intro probs h
    cases probs with
    | nil => simp at h
    | cons p ps =>
      have hlen : bs.length = ps.length := by simpa using h
      simp only [buildScored, List.zip_cons_cons, List.map_cons]
      exact congrArg _ (ih ps hlen)

/-- Three candidates for the spec's worked scorer example. -/
def exBatters : List BatterInfo := [⟨"A1", 100⟩, ⟨"A2", 100⟩, ⟨"A3", 100⟩]

/-- A concrete stand-in for the opaque model: candidate 1 gets the
probability vector `[0.5, 0.3, 0.2]`, candidate 2 `[0.1, 0.3, 0.6]`,
candidate 3 `[0.3, 0.3, 0.4]` (class order Pressure, Rotation, Boundary). -/
def exPredict (r : Row) : Prob3 :=
  if alookup "Batter" r = some (Val.s "A2") then (1/10, 3/10, 3/5)
  else if alookup "Batter" r = some (Val.s "A3") then (3/10, 3/10, 2/5)
  else (1/2, 3/10, 1/5)

theorem exScoredPre_eval : scoredPre [] exBatters exPredict ["Batter"] =
    some [mkScored ⟨"A1", 100⟩ (1/2, 3/10, 1/5),
          mkScored ⟨"A2", 100⟩ (1/10, 3/10, 3/5),
          mkScored ⟨"A3", 100⟩ (3/10, 3/10, 2/5)] := rfl

theorem exScored1_eval : mkScored ⟨"A1", 100⟩ (1/2, 3/10, 1/5) =
    { Batter := "A1", Tactical_Score := 10, Boundary_Prob := 20,
      Strike_Rotation := 30, Pressure_Prob := 50 } := by
  simp only [mkScored, tactical_score, ScoredRow.mk.injEq]
  norm_num [round2]

theorem exScored2_eval : mkScored ⟨"A2", 100⟩ (1/10, 3/10, 3/5) =
    { Batter := "A2", Tactical_Score := 110, Boundary_Prob := 60,
      Strike_Rotation := 30, Pressure_Prob := 10 } := by
  simp only [mkScored, tactical_score, ScoredRow.mk.injEq]
  norm_num [round2]

theorem exScored3_eval : mkScored ⟨"A3", 100⟩ (3/10, 3/10, 2/5) =
    { Batter := "A3", Tactical_Score := 60, Boundary_Prob := 40,
      Strike_Rotation := 30, Pressure_Prob := 30 } := by
  simp only [mkScored, tactical_score, ScoredRow.mk.injEq]
  norm_num [round2]

/-- Full evaluation of the scorer on the example: sorted descending, the
reported scores are `[110, 60, 10]`. -/
theorem exOpt_eval : optimize_batting_order [] exBatters exPredict ["Batter"] =
    some
      [{ Batter := "A2", Tactical_Score := 110, Boundary_Prob := 60,
         Strike_Rotation := 30, Pressure_Prob := 10 },
       { Batter := "A3", Tactical_Score := 60, Boundary_Prob := 40,
         Strike_Rotation := 30, Pressure_Prob := 30 },
       { Batter := "A1", Tactical_Score := 10, Boundary_Prob := 20,
         Strike_Rotation := 30, Pressure_Prob := 50 }] := by
  unfold optimize_batting_order
  rw [exScoredPre_eval]
  rw [Option.map_some']
  rw [exScored1_eval, exScored2_eval, exScored3_eval]
  congr 1

theorem exOrder_eval : optimize_order [] exBatters exPredict ["Batter"] =
    some
      [{ Rank := 1, Batter := "A2", Boundary_Prob := 60,
         Strike_Rotation := 30, Pressure_Prob := 10, Middle_Over_Score := 110 },
       { Rank := 2, Batter := "A3", Boundary_Prob := 40,
         Strike_Rotation := 30, Pressure_Prob := 30, Middle_Over_Score := 60 },
       { Rank := 3, Batter := "A1", Boundary_Prob := 20,
         Strike_Rotation := 30, Pressure_Prob := 50, Middle_Over_Score := 10 }] := by
  unfold optimize_order
  rw [exOpt_eval, Option.map_some']
  simp only [List.enumFrom, List.map_cons, List.map_nil,
    Option.some.injEq, List.cons.injEq, RankedRow.mk.injEq]
  norm_num [round2]

/-- C1, counterexample: with the three probability vectors of the claim, the
Tactical Scores the scorer computes and reports are `10.0`, `110.0`, `60.0`
— not `10.0`, `50.0`, `30.0` as claimed for the second and third vectors. -/
theorem tactical_score_claim_counterexample :
    ((optimize_batting_order [] exBatters exPredict ["Batter"]).getD []).map
        (fun r => r.Tactical_Score) = [110, 60, 10] ∧
    round2 (tactical_score (1/10, 3/10, 3/5)) = 110 ∧
    round2 (tactical_score (1/10, 3/10, 3/5)) ≠ 50 ∧
    round2 (tactical_score (3/10, 3/10, 2/5)) = 60 ∧
    round2 (tactical_score (3/10, 3/10, 2/5)) ≠ 30 := by
  have h2 : round2 (tactical_score (1/10, 3/10, 3/5)) = 110 := by
    norm_num [tactical_score, round2]
  have h3 : round2 (tactical_score (3/10, 3/10, 2/5)) = 60 := by
    norm_num [tactical_score, round2]
  refine ⟨?_, h2, ?_, h3, ?_⟩
  · rw [exOpt_eval]
    rfl
  · rw [h2]; norm_num
  · rw [h3]; norm_num

/-- C1, amended: for every candidate the Tactical Score equals
`Boundary_prob*1.5 + Rotation_prob*1.0 − Pressure_prob*1.0` with the class
probabilities (index 0 Pressure, index 1 Strike Rotation, index 2 Boundary)
first scaled to percentages, rounded to two decimals in the report; for the
probability vectors `[0.5,0.3,0.2]`, `[0.1,0.3,0.6]`, `[0.3,0.3,0.4]` the
scores are `10.0`, `110.0` and `60.0` respectively. -/
theorem tactical_score_spec :
    (∀ p : Prob3, tactical_score p =
      p.2.2 * 100 * (3 / 2) + p.2.1 * 100 - p.1 * 100) ∧
    (∀ (batters : List BatterInfo) (probs : List Prob3),
      batters.length = probs.length →
      (buildScored batters probs).map (fun r => r.Tactical_Score) =
        probs.map (fun p => round2 (tactical_score p))) ∧
    round2 (tactical_score (1/2, 3/10, 1/5)) = 10 ∧
    round2 (tactical_score (1/10, 3/10, 3/5)) = 110 ∧
    round2 (tactical_score (3/10, 3/10, 2/5)) = 60 := by
  refine ⟨?_, buildScored_map_score, ?_, ?_, ?_⟩
  · intro p
    unfold tactical_score
    ring
  · norm_num [tactical_score, round2]
  · norm_num [tactical_score, round2]
  · norm_num [tactical_score, round2]

/-- Witness for `tactical_score_spec`: the per-candidate clause applied to
the three example candidates. -/
theorem tactical_score_spec_witness :
    (buildScored exBatters
        [(1/2, 3/10, 1/5), (1/10, 3/10, 3/5), (3/10, 3/10, 2/5)]).map
      (fun r => r.Tactical_Score) =
    [((1/2 : ℚ), (3/10 : ℚ), (1/5 : ℚ)), (1/10, 3/10, 3/5),
      (3/10, 3/10, 2/5)].map (fun p => round2 (tactical_score p)) :=
  tactical_score_spec.2.1 exBatters
    [(1/2, 3/10, 1/5), (1/10, 3/10, 3/5), (3/10, 3/10, 2/5)] rfl

theorem reindexRow_none : ∀ (cols : List String) (r : Row) (c : String),
    c ∈ cols → alookup c r = none → reindexRow cols r = none := by
  intro cols
  induction cols with
  | nil => intro r c hc _; simp at hc
  | cons c0 t ih =>
    intro r c hc hnone
    show traverseOpt _ (c0 :: t) = none
    rcases List.mem_cons.mp hc with rfl | hc'
    · simp [traverseOpt, hnone]
    · cases hfa : (alookup c0 r).map (fun v => (c0, v)) with
      | none => simp [traverseOpt, hfa]
      | some b =>
        have htail : traverseOpt
            (fun c' => (alookup c' r).map (fun v => (c', v))) t = none :=
          ih r c hc' hnone
        simp [traverseOpt, hfa, htail]

/-- C8: when a training column cannot be resolved in the constructed rows,
the scorer fails (returns no result at all) rather than coercing or
dropping candidates; and whenever it does return, every input candidate
appears exactly once in the output. -/
theorem schema_mismatch_spec :
    (∀ (scenario : Row) (b : BatterInfo) (bs : List BatterInfo)
      (predict : Row → Prob3) (cols : List String) (c : String),
      c ∈ cols → alookup c (buildRow scenario b) = none →
      optimize_batting_order scenario (b :: bs) predict cols = none) ∧
    (∀ (scenario : Row) (batters : List BatterInfo) (predict : Row → Prob3)
      (cols : List String) (l : List ScoredRow),
      optimize_batting_order scenario batters predict cols = some l →
      (l.map (fun r => r.Batter)).Perm (batters.map (fun b => b.name))) := by
  constructor
  · intro scenario b bs predict cols c hc hnone
    unfold optimize_batting_order scoredPre
    rw [List.map_cons,
      traverseOpt_cons_none (reindexRow cols) _ _
        (reindexRow_none cols (buildRow scenario b) c hc hnone)]
    rfl
  · intro scenario batters predict cols l hl
    obtain ⟨pre0, hpre0, hlpre⟩ : ∃ pre0,
        scoredPre scenario batters predict cols = some pre0 ∧
        l = sortLe scoreLe pre0 := by
      unfold optimize_batting_order at hl
      cases hp : scoredPre scenario batters predict cols with
      | none => rw [hp] at hl; simp at hl
      | some pre0 =>
        rw [hp] at hl
        simp at hl
        exact ⟨pre0, rfl, hl.symm⟩
    subst hlpre
    refine ((sortLe_perm scoreLe pre0).map (fun r => r.Batter)).trans ?_
    obtain ⟨rs, hrs, hpre0'⟩ : ∃ rs,
        traverseOpt (reindexRow cols) (batters.map (buildRow scenario)) =
          some rs ∧ pre0 = buildScored batters (rs.map predict) := by
      unfold scoredPre at hpre0
      cases ht : traverseOpt (reindexRow cols)
          (batters.map (buildRow scenario)) with
      | none => rw [ht] at hpre0; simp at hpre0
      | some rs =>
        rw [ht] at hpre0
        simp at hpre0
        exact ⟨rs, rfl, hpre0.symm⟩
    subst hpre0'
    have hlen : batters.length = (rs.map predict).length := by
      rw [List.length_map,
        traverseOpt_length (reindexRow cols) _ rs hrs, List.length_map]
    rw [buildScored_map_Batter batters (rs.map predict) hlen]

/-- Witness for `schema_mismatch_spec`: a training column absent from the
constructed rows makes the scorer fail outright; and on the example run
every candidate appears exactly once. -/
theorem schema_mismatch_spec_witness :
    optimize_batting_order [] [⟨"A", 100⟩]
        (fun _ => (1/3, 1/3, 1/3)) ["Missing_Col"] = none ∧
    ((([{ Batter := "A2", Tactical_Score := 110, Boundary_Prob := 60,
          Strike_Rotation := 30, Pressure_Prob := 10 },
        { Batter := "A3", Tactical_Score := 60, Boundary_Prob := 40,
          Strike_Rotation := 30, Pressure_Prob := 30 },
        { Batter := "A1", Tactical_Score := 10, Boundary_Prob := 20,
          Strike_Rotation := 30, Pressure_Prob := 50 }] : List ScoredRow).map
        (fun r => r.Batter)).Perm (exBatters.map (fun b => b.name))) := by
  constructor
  · exact schema_mismatch_spec.1 [] ⟨"A", 100⟩ [] _ ["Missing_Col"]
      "Missing_Col" (List.mem_singleton.mpr rfl) (by decide)
  · exact schema_mismatch_spec.2 [] exBatters exPredict ["Batter"] _ exOpt_eval

/-- C10: for class probabilities each in `[0, 1]` summing to `1`, the
Tactical Score (as computed and as reported by the endpoint as
`Middle_Over_Score`, which re-rounds it without changing it) lies between
`-100.0` and `150.0` inclusive. -/
theorem score_bounds_spec :
    ∀ p0 p1 p2 : ℚ, 0 ≤ p0 → p0 ≤ 1 → 0 ≤ p1 → p1 ≤ 1 → 0 ≤ p2 → p2 ≤ 1 →
      p0 + p1 + p2 = 1 →
      -100 ≤ round2 (tactical_score (p0, p1, p2)) ∧
      round2 (tactical_score (p0, p1, p2)) ≤ 150 ∧
      round2 (round2 (tactical_score (p0, p1, p2))) =
        round2 (tactical_score (p0, p1, p2)) := by
  intro p0 p1 p2 h00 h01 h10 h11 h20 h21 hsum
  have hlow : (-100 : ℚ) ≤ (p2 * 100) * (3 / 2) + (p1 * 100) * 1 -
      (p0 * 100) * 1 := by linarith
  have hhigh : (p2 * 100) * (3 / 2) + (p1 * 100) * 1 - (p0 * 100) * 1 ≤
      (150 : ℚ) := by linarith
  have hlow' : (-100 : ℚ) ≤ tactical_score (p0, p1, p2) := hlow
  have hhigh' : tactical_score (p0, p1, p2) ≤ 150 := hhigh
  refine ⟨?_, ?_, round2_idem _⟩
  · have := round2_mono hlow'
    rwa [show round2 (-100) = -100 by
      rw [show ((-100 : ℚ)) = ((-100 : ℤ) : ℚ) by norm_num, round2_intCast]] at this
  · have := round2_mono hhigh'
    rwa [show round2 (150) = 150 by
      rw [show ((150 : ℚ)) = ((150 : ℤ) : ℚ) by norm_num, round2_intCast]] at this

/-- Witness for `score_bounds_spec`: the pure-Boundary vector attains the
upper end of the range. -/
theorem score_bounds_spec_witness :
    -100 ≤ round2 (tactical_score (0, 0, 1)) ∧
    round2 (tactical_score (0, 0, 1)) ≤ 150 ∧
    round2 (round2 (tactical_score (0, 0, 1))) =
      round2 (tactical_score (0, 0, 1)) :=
  score_bounds_spec 0 0 1 (by norm_num) (by norm_num) (by norm_num)
    (by norm_num) (by norm_num) (by norm_num) (by norm_num)

/-! ## The enrichment passes over CSV rows
(`analyze_venues.py` pass 2, `calculate_batter_recent_form.py` pass 2,
`calculate_runrate.py`) -/

/-- Read a string cell (`row[k]` / `row.get(k, d)`). -/
def getS (r : Row) (k d : String) : String :=
  match alookup k r with
  | some (Val.s x) => x
  | _ => d

/-- Read an integer cell (`int(row[k])`; the source data's numeric cells are
non-negative integers). -/
def getN (r : Row) (k : String) : ℕ :=
  match alookup k r with
  | some (Val.n x) => x
  | _ => 0

/-- The delivery fields a CSV row carries, as read by the three scripts.
(`Extras_Type`, `Wicket` and `Wicket_Mode` default to the empty string for a
missing cell; the scripts' own defaults — `''` or `'N/A'` — are
indistinguishable for every use they make of them.) -/
def toDelivery (r : Row) : Delivery :=
  { file := getS r "File" ""
    date := getS r "Match_Date" ""
    venue := getS r "Venue" ""
    batter := getS r "Batter" ""
    bowler_type := getS r "Bowler_Type" ""
    batter_runs := getN r "Batter_Runs"
    extras_type := getS r "Extras_Type" ""
    total_runs := getN r "Total_Runs_This_Ball"
    cumulative_runs := getN r "Cumulative_Runs"
    over := getN r "Over"
    ball := getN r "Ball"
    wicket := getS r "Wicket" ""
    wicket_mode := getS r "Wicket_Mode" "" }

/-- The columns `toDelivery` reads — disjoint from the three derived
columns. -/
def sourceCols : List String :=
  ["File", "Match_Date", "Venue", "Batter", "Bowler_Type", "Batter_Runs",
   "Extras_Type", "Total_Runs_This_Ball", "Cumulative_Runs", "Over", "Ball",
   "Wicket", "Wicket_Mode"]

/-- The venue → classification map of `analyze_venues.main`, over the
venues occurring in the dataset (a venue all of whose deliveries have
`Unknown` bowler type keeps zero accumulators and classifies `Neutral`,
matching the script's `.get(venue, 'Neutral')` fallback for venues absent
from `venue_stats`); `none` when any classification raises. -/
def venueClassPairs (dl : List Delivery) : Option (List (String × String)) :=
  let st := venueAggregate dl
  traverseOpt
    (fun v =>
      (classify_venue (st.stats v).pace.balls (st.stats v).pace.runs
          (st.stats v).pace.wkts (st.stats v).spin.balls (st.stats v).spin.runs
          (st.stats v).spin.wkts ((st.matches_per_venue v).length)).map
        (fun c => (v, c)))
    ((dl.map (fun d => d.venue)).dedup)

/-- Pass 2 of `analyze_venues.main`: overwrite each row's `Venue_Type`
cell with the venue's classification (default `Neutral`). -/
def enrichVenue (ds : List Row) : Option (List Row) :=
  (venueClassPairs (ds.map toDelivery)).map (fun pairs =>
    ds.map (fun r =>
      rowSet r "Venue_Type"
        (Val.s ((alookup (getS r "Venue" "") pairs).getD "Neutral"))))

/-- The recent-form value written into one row. -/
def formValue (m : List (InnKey × InnVal)) (r : Row) : ℚ :=
  (alookup (getS r "File" "", getS r "Batter" "") (last5Entries m)).getD 0

/-- Pass 2 of `calculate_batter_recent_form.main`: overwrite each row's
`Batter_Last5_SR` cell with `last5_sr.get((File, Batter), 0.0)`. -/
def enrichForm (ds : List Row) : List Row :=
  ds.map (fun r =>
    rowSet r "Batter_Last5_SR"
      (Val.q (formValue (inningsFold (ds.map toDelivery)) r)))

/-- `calculate_runrate.main`: overwrite each row's `Current_Run_Rate` cell
with `calculate_crr(Over, Ball, Cumulative_Runs)`. -/
def enrichCRR (ds : List Row) : List Row :=
  ds.map (fun r =>
    rowSet r "Current_Run_Rate"
      (Val.q (calculate_crr (getN r "Over") (getN r "Ball")
        ((getN r "Cumulative_Runs" : ℕ) : ℚ))))

theorem alookup_rowSet_ne {r : Row} {c k : String} {v : Val}
    (hne : ¬ c = k) : alookup k (rowSet r c v) = alookup k r := by
  induction r with
  | nil => simp [rowSet, alookup, hne]
  | cons hd tl ih =>
    obtain ⟨k', v'⟩ := hd
    have hkc : ¬ k = c := fun hh => hne hh.symm
    by_cases h : k' = c
    · subst h
      simp [rowSet, alookup, hne, hkc]
    · by_cases h2 : k' = k <;> simp [rowSet, alookup, h, h2, hkc, ih]

theorem getS_rowSet_ne {r : Row} {c k : String} {v : Val} {d : String}
    (hne : ¬ c = k) : getS (rowSet r c v) k d = getS r k d := by
  unfold getS
  rw [alookup_rowSet_ne hne]

theorem getN_rowSet_ne {r : Row} {c k : String} {v : Val}
    (hne : ¬ c = k) : getN (rowSet r c v) k = getN r k := by
  unfold getN
  rw [alookup_rowSet_ne hne]

theorem rowSet_rowSet_same (r : Row) (k : String) (v v' : Val) :
    rowSet (rowSet r k v) k v' = rowSet r k v' := by
  induction r with
  | nil => simp [rowSet]
  | cons hd tl ih =>
    obtain ⟨k', w⟩ := hd
    by_cases h : k' = k
    · subst h
      simp [rowSet]
    · simp [rowSet, h, ih]

theorem keys_rowSet (r : Row) (k : String) (v : Val) :
    (rowSet r k v).map Prod.fst =
      if k ∈ r.map Prod.fst then r.map Prod.fst
      else r.map Prod.fst ++ [k] := by
  induction r with
  | nil => simp [rowSet]
  | cons hd tl ih =>
    obtain ⟨k', w⟩ := hd
    by_cases h : k' = k
    · subst h
      simp [rowSet]
    · have h' : ¬ k = k' := fun hh => h hh.symm
      by_cases hm : k ∈ tl.map Prod.fst <;>
        simp [rowSet, h, h', hm, ih]

theorem nodup_keys_rowSet {r : Row} (k : String) (v : Val)
    (h : (r.map Prod.fst).Nodup) : ((rowSet r k v).map Prod.fst).Nodup := by
  rw [keys_rowSet]
  by_cases hm : k ∈ r.map Prod.fst
  · simpa [hm]
  · simpa [hm, List.nodup_append] using h

theorem toDelivery_rowSet (r : Row) (c : String) (v : Val)
    (hc : c ∉ sourceCols) : toDelivery (rowSet r c v) = toDelivery r := by
  simp only [sourceCols, List.mem_cons, List.not_mem_nil, or_false,
    not_or] at hc
  obtain ⟨h1, h2, h3, h4, h5, h6, h7, h8, h9, h10, h11, h12, h13⟩ := hc
  unfold toDelivery
  rw [getS_rowSet_ne h1, getS_rowSet_ne h2, getS_rowSet_ne h3,
    getS_rowSet_ne h4, getS_rowSet_ne h5, getN_rowSet_ne h6,
    getS_rowSet_ne h7, getN_rowSet_ne h8, getN_rowSet_ne h9,
    getN_rowSet_ne h10, getN_rowSet_ne h11, getS_rowSet_ne h12,
    getS_rowSet_ne h13]

theorem enrichForm_toDelivery (ds : List Row) :
    (enrichForm ds).map toDelivery = ds.map toDelivery := by
  unfold enrichForm
  rw [List.map_map]
  apply List.map_congr_left
  intro r _
  exact toDelivery_rowSet r "Batter_Last5_SR" _ (by decide)

theorem enrichCRR_toDelivery (ds : List Row) :
    (enrichCRR ds).map toDelivery = ds.map toDelivery := by
  unfold enrichCRR
  rw [List.map_map]
  apply List.map_congr_left
  intro r _
  exact toDelivery_rowSet r "Current_Run_Rate" _ (by decide)

theorem formValue_rowSet (m : List (InnKey × InnVal)) (r : Row) (v : Val) :
    formValue m (rowSet r "Batter_Last5_SR" v) = formValue m r := by
  unfold formValue
  rw [getS_rowSet_ne (by decide), getS_rowSet_ne (by decide)]

/-- C9: each enrichment pass is idempotent — re-running it on its own
output overwrites the derived column in place with identical values — and
none of the passes duplicates a column (rows with duplicate-free column
names stay duplicate-free). -/
theorem enrichment_idempotent_spec :
    (∀ ds ds' : List Row, enrichVenue ds = some ds' →
      enrichVenue ds' = some ds') ∧
    (∀ ds : List Row, enrichForm (enrichForm ds) = enrichForm ds) ∧
    (∀ ds : List Row, enrichCRR (enrichCRR ds) = enrichCRR ds) ∧
    (∀ (ds ds' : List Row) (r : Row), enrichVenue ds = some ds' →
      (∀ r0 ∈ ds, (r0.map Prod.fst).Nodup) → r ∈ ds' →
      (r.map Prod.fst).Nodup) ∧
    (∀ (ds : List Row) (r : Row), (∀ r0 ∈ ds, (r0.map Prod.fst).Nodup) →
      r ∈ enrichForm ds → (r.map Prod.fst).Nodup) ∧
    (∀ (ds : List Row) (r : Row), (∀ r0 ∈ ds, (r0.map Prod.fst).Nodup) →
      r ∈ enrichCRR ds → (r.map Prod.fst).Nodup) := by
  have hvshape : ∀ ds ds' : List Row, enrichVenue ds = some ds' →
      ∃ pairs, venueClassPairs (ds.map toDelivery) = some pairs ∧
        ds' = ds.map (fun r =>
          rowSet r "Venue_Type"
            (Val.s ((alookup (getS r "Venue" "") pairs).getD "Neutral"))) := by
    intro ds ds' h
    unfold enrichVenue at h
    cases hvp : venueClassPairs (ds.map toDelivery) with
    | none => rw [hvp] at h; simp at h
    | some pairs =>
      rw [hvp] at h
      simp at h
      exact ⟨pairs, rfl, h.symm⟩
  refine ⟨?_, ?_, ?_, ?_, ?_, ?_⟩
  · intro ds ds' h
    obtain ⟨pairs, hvp, hds'⟩ := hvshape ds ds' h
    have hdl : ds'.map toDelivery = ds.map toDelivery := by
      rw [hds', List.map_map]
      apply List.map_congr_left
      intro r _
      exact toDelivery_rowSet r "Venue_Type" _ (by decide)
    unfold enrichVenue
    rw [hdl, hvp, Option.map_some']
    congr 1
    rw [hds', List.map_map]
    apply List.map_congr_left
    intro r _
    show rowSet (rowSet r "Venue_Type" _) "Venue_Type" _ = _
    rw [rowSet_rowSet_same, getS_rowSet_ne (by decide)]
  · intro ds
    have hdl := enrichForm_toDelivery ds
    unfold enrichForm at hdl ⊢
    rw [hdl, List.map_map]
    apply List.map_congr_left
    intro r _
    show rowSet (rowSet r "Batter_Last5_SR" _) "Batter_Last5_SR" _ = _
    rw [rowSet_rowSet_same, formValue_rowSet]
  · intro ds
    unfold enrichCRR
    rw [List.map_map]
    apply List.map_congr_left
    intro r _
    show rowSet (rowSet r "Current_Run_Rate" _) "Current_Run_Rate" _ = _
    rw [rowSet_rowSet_same, getN_rowSet_ne (by decide),
      getN_rowSet_ne (by decide), getN_rowSet_ne (by decide)]
  · intro ds ds' r h hnod hr
    obtain ⟨pairs, hvp, hds'⟩ := hvshape ds ds' h
    rw [hds'] at hr
    obtain ⟨r0, hr0, hr0e⟩ := List.mem_map.mp hr
    rw [← hr0e]
    exact nodup_keys_rowSet _ _ (hnod r0 hr0)
  · intro ds r hnod hr
    obtain ⟨r0, hr0, hr0e⟩ := List.mem_map.mp hr
    rw [← hr0e]
    exact nodup_keys_rowSet _ _ (hnod r0 hr0)
  · intro ds r hnod hr
    obtain ⟨r0, hr0, hr0e⟩ := List.mem_map.mp hr
    rw [← hr0e]
    exact nodup_keys_rowSet _ _ (hnod r0 hr0)

/-- A two-column row and its venue-enriched form, for the idempotence
witness. -/
def exRow : Row := [("Venue", Val.s "G"), ("File", Val.s "m1")]

def exRowV : Row :=
  [("Venue", Val.s "G"), ("File", Val.s "m1"), ("Venue_Type", Val.s "Neutral")]

/-- Witness for `enrichment_idempotent_spec`: re-running the venue pass on
an already-enriched one-row dataset reproduces it, and the recent-form pass
keeps the row's column names duplicate-free. -/
theorem enrichment_idempotent_spec_witness :
    enrichVenue [exRowV] = some [exRowV] ∧
    ((rowSet exRow "Batter_Last5_SR"
        (Val.q (formValue (inningsFold ([exRow].map toDelivery)) exRow))).map
      Prod.fst).Nodup := by
  constructor
  · exact enrichment_idempotent_spec.1 [exRow] [exRowV] rfl
  · exact enrichment_idempotent_spec.2.2.2.2.1 [exRow] _
      (by
        intro r0 hr0
        rw [List.mem_singleton.mp hr0]
        decide)
      (List.mem_map.mpr ⟨exRow, List.mem_singleton.mpr rfl, rfl⟩)

end MOSRO
